import Mathlib

/-!
Shallow embedding of the sdf-heart repository's fragment shaders.

GLSL floats are modelled as elements of a linear ordered field (instantiated
at the reals in the theorems; rational instances are used to evaluate the
definitions on concrete inputs).  Transcendental library calls that the
shader makes (sqrt inside length and normalize, pow for gamma encoding,
sin and cos of the time uniform) are threaded through the definitions as
explicit function or value parameters and instantiated with Real.sqrt,
Real.rpow, Real.sin and Real.cos in the statements, so every definition
below stays computable.
-/

namespace SdfHeart

variable {K : Type} [LinearOrderedField K]

/-- Value of a GLSL vec3. -/
@[ext]
structure Vec3 (K : Type) where
  x : K
  y : K
  z : K
deriving DecidableEq, Repr

namespace Vec3

instance : Add (Vec3 K) := ⟨fun a b => ⟨a.x + b.x, a.y + b.y, a.z + b.z⟩⟩
instance : Sub (Vec3 K) := ⟨fun a b => ⟨a.x - b.x, a.y - b.y, a.z - b.z⟩⟩
instance : Neg (Vec3 K) := ⟨fun a => ⟨-a.x, -a.y, -a.z⟩⟩
instance : Mul (Vec3 K) := ⟨fun a b => ⟨a.x * b.x, a.y * b.y, a.z * b.z⟩⟩
instance : Div (Vec3 K) := ⟨fun a b => ⟨a.x / b.x, a.y / b.y, a.z / b.z⟩⟩
instance : SMul K (Vec3 K) := ⟨fun t v => ⟨t * v.x, t * v.y, t * v.z⟩⟩
instance : HDiv (Vec3 K) K (Vec3 K) := ⟨fun v s => ⟨v.x / s, v.y / s, v.z / s⟩⟩
instance : HMul (Vec3 K) K (Vec3 K) := ⟨fun v s => ⟨v.x * s, v.y * s, v.z * s⟩⟩
instance : HMul K (Vec3 K) (Vec3 K) := ⟨fun s v => ⟨s * v.x, s * v.y, s * v.z⟩⟩

@[simp] theorem add_def (a b : Vec3 K) : a + b = ⟨a.x + b.x, a.y + b.y, a.z + b.z⟩ := rfl
@[simp] theorem sub_def (a b : Vec3 K) : a - b = ⟨a.x - b.x, a.y - b.y, a.z - b.z⟩ := rfl
@[simp] theorem neg_def (a : Vec3 K) : -a = ⟨-a.x, -a.y, -a.z⟩ := rfl
@[simp] theorem mul_def (a b : Vec3 K) : a * b = ⟨a.x * b.x, a.y * b.y, a.z * b.z⟩ := rfl
@[simp] theorem div_def (a b : Vec3 K) : a / b = ⟨a.x / b.x, a.y / b.y, a.z / b.z⟩ := rfl
@[simp] theorem smul_def (t : K) (v : Vec3 K) : t • v = ⟨t * v.x, t * v.y, t * v.z⟩ := rfl
@[simp] theorem divS_def (v : Vec3 K) (s : K) : v / s = ⟨v.x / s, v.y / s, v.z / s⟩ := rfl
@[simp] theorem mulS_def (v : Vec3 K) (s : K) : v * s = ⟨v.x * s, v.y * s, v.z * s⟩ := rfl
@[simp] theorem smulS_def (s : K) (v : Vec3 K) : s * v = ⟨s * v.x, s * v.y, s * v.z⟩ := rfl

end Vec3

/-- GLSL dot product of two vec3 values. -/
def dot (a b : Vec3 K) : K := a.x * b.x + a.y * b.y + a.z * b.z

/-- GLSL cross product of two vec3 values. -/
def cross (a b : Vec3 K) : Vec3 K :=
  ⟨a.y * b.z - a.z * b.y, a.z * b.x - a.x * b.z, a.x * b.y - a.y * b.x⟩

/-- GLSL length of a vec3, with the square root supplied as a parameter. -/
def glslLength (sq : K → K) (v : Vec3 K) : K := sq (dot v v)

/-- GLSL normalize of a vec3, with the square root supplied as a parameter. -/
def normalize (sq : K → K) (v : Vec3 K) : Vec3 K := v / glslLength sq v

/-- GLSL clamp for scalars. -/
def clamp (x lo hi : K) : K := min (max x lo) hi

/-- GLSL mix (linear interpolation) for scalars. -/
def mix (a b t : K) : K := a * (1 - t) + b * t

/-- GLSL mix (linear interpolation) applied componentwise to vec3 values. -/
def mixV (a b : Vec3 K) (t : K) : Vec3 K :=
  ⟨mix a.x b.x t, mix a.y b.y t, mix a.z b.z t⟩

/-- GLSL smoothstep. -/
def smoothstep (e0 e1 x : K) : K :=
  let t := clamp ((x - e0) / (e1 - e0)) 0 1
  t * t * (3 - 2 * t)

/-- Constant PI declared at the top of shader.frag; a decimal literal,
not the real number pi. -/
def shaderPI : K := 3.141592653589793

/-- Heart implicit equation from shader.frag, eqHeart:
the value of the polynomial on the left of
(x^2 + 9/4 y^2 + z^2 - 1)^3 - x^2 z^3 - 9/80 y^2 z^3 = 0. -/
def eqHeart (p : Vec3 K) : K :=
  let x2 := p.x * p.x
  let y2 := p.y * p.y
  let z2 := p.z * p.z
  let z3 := z2 * p.z
  let term1_base := x2 + 2.25 * y2 + z2 - 1
  let term1 := term1_base * term1_base * term1_base
  let term2 := x2 * z3
  let term3 := 0.1125 * y2 * z3
  term1 - term2 - term3

/-- Analytic gradient of the heart equation from shader.frag, gradHeart. -/
def gradHeart (p : Vec3 K) : Vec3 K :=
  let x := p.x
  let y := p.y
  let z := p.z
  let x_sq := x * x
  let y_sq := y * y
  let z_sq := z * z
  let z_cub := z_sq * z
  let common_term_base := x_sq + 2.25 * y_sq + z_sq - 1
  let common_term_sq := common_term_base * common_term_base
  let df_dx := 6 * x * common_term_sq - 2 * x * z_cub
  let df_dy := 13.5 * y * common_term_sq - 0.225 * y * z_cub
  let df_dz := 6 * z * common_term_sq - 3 * x_sq * z_sq - 0.3375 * y_sq * z_sq
  ⟨df_dx, df_dy, df_dz⟩

/-- Heart signed distance estimate from shader.frag, sdHeart. -/
def sdHeart (sq : K → K) (p_def_coord anim_scales : Vec3 K) : K :=
  let eq_val := eqHeart p_def_coord
  let grad_val := gradHeart p_def_coord
  eq_val / (glslLength sq (grad_val / anim_scales) + 1e-9)

/-- Angular frequency of the heartbeat in shader.frag,
beat_freq_rad_per_sec = 2 * PI * (beat_bpm / 60) at beat_bpm = 30. -/
def beatFreq : K := 2 * shaderPI * (30 / 60)

/-- Animation scale triple from shader.frag, getHeartAnimationScales,
as a function of the value of cos(beat_phase) where
beat_phase = u_time * beat_freq_rad_per_sec. -/
def getHeartAnimationScales (cosBeatPhase : K) : Vec3 K :=
  let beat_amplitude : K := 0.02
  let beat_cycle := (cosBeatPhase + 1) * 0.5
  let s_beat := 1 - beat_amplitude * (1 - beat_cycle)
  let scale_heart_eqX := s_beat
  let scale_heart_eqY := s_beat
  let scale_heart_eqZ := 1 / (scale_heart_eqX * scale_heart_eqY + 1e-7)
  ⟨scale_heart_eqX, scale_heart_eqY, scale_heart_eqZ⟩

/-- Record returned by getHeartTransformDataForPoint in shader.frag. -/
structure HeartTransformData (K : Type) where
  p_definition_space : Vec3 K
  animation_scales : Vec3 K

/-- Coordinate transformation from shader.frag,
getHeartTransformDataForPoint: translate by the (zero) heart position,
swizzle .xzy, and divide by the animation scales. -/
def getHeartTransformDataForPoint (cosBeatPhase : K) (p_world : Vec3 K) :
    HeartTransformData K :=
  let heartPos : Vec3 K := ⟨0, 0, 0⟩
  let p_local := p_world - heartPos
  let p_local_swizzled : Vec3 K := ⟨p_local.x, p_local.z, p_local.y⟩
  let anim := getHeartAnimationScales cosBeatPhase
  ⟨p_local_swizzled / anim, anim⟩

/-- Scene distance query from shader.frag, map: returns
(signed distance estimate, material id). -/
def map (sq : K → K) (cosBeatPhase : K) (p : Vec3 K) : K × K :=
  let sceneDist : K := 1e10
  let materialID : K := 0
  let heart_data := getHeartTransformDataForPoint cosBeatPhase p
  let heartDist := sdHeart sq heart_data.p_definition_space heart_data.animation_scales
  if heartDist < sceneDist then (heartDist, 1) else (sceneDist, materialID)

/-- Iteration cap of the raymarching loop in shader.frag. -/
def MAX_STEPS : Nat := 100

/-- Maximum travel distance of the raymarching loop in shader.frag. -/
def MAX_DIST : K := 100

/-- Hit threshold of the raymarching loop in shader.frag. -/
def HIT_THRESHOLD : K := 0.001

/-- Body of the raymarching loop in shader.frag, with the remaining
iteration budget as explicit fuel; the scene map is a parameter. -/
def raymarchAux (mapF : Vec3 K → K × K) (ro rd : Vec3 K) : Nat → K → K × K
  | 0, _ => (MAX_DIST, -1)
  | Nat.succ n, t =>
    let p_current := ro + t • rd
    let map_result := mapF p_current
    let dist_to_surface := map_result.1
    if dist_to_surface < HIT_THRESHOLD then (t, map_result.2)
    else if MAX_DIST < t + dist_to_surface then (MAX_DIST, -1)
    else raymarchAux mapF ro rd n (t + dist_to_surface)

/-- Sphere tracer from shader.frag, raymarch: marches from t = 0 with
MAX_STEPS iterations of the loop body. -/
def raymarch (mapF : Vec3 K → K × K) (ro rd : Vec3 K) : K × K :=
  raymarchAux mapF ro rd MAX_STEPS 0

/-- Number of scene-map samples taken by the raymarching loop of
shader.frag, by the same recursion as raymarchAux. -/
def raymarchSamples (mapF : Vec3 K → K × K) (ro rd : Vec3 K) : Nat → K → Nat
  | 0, _ => 0
  | Nat.succ n, t =>
    let map_result := mapF (ro + t • rd)
    let dist_to_surface := map_result.1
    if dist_to_surface < HIT_THRESHOLD then 1
    else if MAX_DIST < t + dist_to_surface then 1
    else 1 + raymarchSamples mapF ro rd n (t + dist_to_surface)

/-- Analytic and finite-difference normal estimation from shader.frag,
calcNormal. -/
def calcNormal (sq : K → K) (cosBeatPhase : K) (p : Vec3 K) (materialID : K) :
    Vec3 K :=
  if materialID = 1 then
    let heart_data := getHeartTransformDataForPoint cosBeatPhase p
    let grad_def_space := gradHeart heart_data.p_definition_space
    let grad_local_swizzled_space := grad_def_space / heart_data.animation_scales
    let n : Vec3 K :=
      ⟨grad_local_swizzled_space.x, grad_local_swizzled_space.z,
        grad_local_swizzled_space.y⟩
    normalize sq n
  else
    let epsilon : K := 0.001
    let m := map sq cosBeatPhase
    let normal : Vec3 K :=
      ⟨(m (p + ⟨epsilon, 0, 0⟩)).1 - (m (p - ⟨epsilon, 0, 0⟩)).1,
        (m (p + ⟨0, epsilon, 0⟩)).1 - (m (p - ⟨0, epsilon, 0⟩)).1,
        (m (p + ⟨0, 0, epsilon⟩)).1 - (m (p - ⟨0, 0, epsilon⟩)).1⟩
    normalize sq normal

/-- Camera ray generation from shader.frag, getRayDirection. -/
def getRayDirection (sq : K → K) (uv : K × K) (camPos lookAt : Vec3 K)
    (zoom : K) : Vec3 K :=
  let f := normalize sq (lookAt - camPos)
  let r := normalize sq (cross ⟨0, 1, 0⟩ f)
  let u := cross f r
  normalize sq (f * zoom + uv.1 • r + uv.2 • u)

/-- Trowbridge-Reitz GGX normal distribution function from shader.frag,
D_GGX. -/
def D_GGX (NdotH roughness : K) : K :=
  let a := roughness * roughness
  let a2 := a * a
  let NdotH2 := NdotH * NdotH
  let denom := NdotH2 * (a2 - 1) + 1
  a2 / (shaderPI * denom * denom)

/-- Schlick-GGX geometry term from shader.frag, G_SchlickGGX. -/
def G_SchlickGGX (NdotVal roughness : K) : K :=
  let r := roughness + 1
  let k := r * r / 8
  NdotVal / (NdotVal * (1 - k) + k)

/-- Smith geometry function from shader.frag, G_Smith. -/
def G_Smith (NdotV NdotL roughness : K) : K :=
  G_SchlickGGX NdotV roughness * G_SchlickGGX NdotL roughness

/-- Schlick Fresnel approximation from shader.frag, F_Schlick. -/
def F_Schlick (cosTheta : K) (F0 : Vec3 K) : Vec3 K :=
  F0 + ((⟨1, 1, 1⟩ : Vec3 K) - F0) * (clamp (1 - cosTheta) 0 1 ^ (5 : Nat))

/-- Ambient lighting term inside PBRShading in shader.frag:
ambient_sky_tint * ambient_intensity_factor * albedo_col * ao_val. -/
def PBRambientContrib (albedo_col : Vec3 K) (ao_val : K) : Vec3 K :=
  let ambient_sky_tint : Vec3 K := ⟨0.05, 0.15, 0.4⟩
  let ambient_intensity_factor : K := 0.5
  ambient_sky_tint * ambient_intensity_factor * albedo_col * ao_val

/-- Direct lighting term inside PBRShading in shader.frag:
(diffuse_contrib + specular_contrib) * radiance * NdotL. -/
def PBRdirectContrib (sq : K → K) (p_surf N_surf V_eye albedo_col : Vec3 K)
    (metallic_val roughness_val : K) (light_pos light_intensity : Vec3 K) :
    Vec3 K :=
  let L_light := normalize sq (light_pos - p_surf)
  let H_half := normalize sq (V_eye + L_light)
  let NdotL := max (dot N_surf L_light) 0
  let NdotV := max (dot N_surf V_eye) 0.001
  let NdotH := max (dot N_surf H_half) 0
  let VdotH := max (dot V_eye H_half) 0
  let dist_light_sq := dot (light_pos - p_surf) (light_pos - p_surf)
  let attenuation := 1 / (dist_light_sq + 1)
  let radiance := light_intensity * attenuation
  let D := D_GGX NdotH roughness_val
  let G := G_Smith NdotV NdotL roughness_val
  let F0 := mixV ⟨0.04, 0.04, 0.04⟩ albedo_col metallic_val
  let F := F_Schlick VdotH F0
  let spec_numerator := D * G * F
  let spec_denominator := 4 * NdotV * NdotL + 0.001
  let specular_contrib := spec_numerator / spec_denominator
  let kS := F
  let kD := ((⟨1, 1, 1⟩ : Vec3 K) - kS) * (1 - metallic_val)
  let diffuse_contrib := kD * albedo_col / (shaderPI : K)
  (diffuse_contrib + specular_contrib) * radiance * NdotL

/-- Cook-Torrance shading function from shader.frag, PBRShading:
ambient contribution plus direct lighting contribution. -/
def PBRShading (sq : K → K) (p_surf N_surf V_eye albedo_col : Vec3 K)
    (metallic_val roughness_val ao_val : K)
    (light_pos light_intensity : Vec3 K) : Vec3 K :=
  PBRambientContrib albedo_col ao_val +
    PBRdirectContrib sq p_surf N_surf V_eye albedo_col metallic_val
      roughness_val light_pos light_intensity

/-- Material dispatch and light animation from shader.frag,
getSurfaceColor; sinLightPhase is the value of sin(u_time * light_speed). -/
def getSurfaceColor (sq : K → K) (sinLightPhase : K)
    (p normal V : Vec3 K) (materialID : K) : Vec3 K :=
  let albedo : Vec3 K := if materialID = 1 then ⟨1, 0, 0⟩ else ⟨0.7, 0.7, 0.7⟩
  let metallic : K := if materialID = 1 then 0.1 else 0
  let roughness : K := if materialID = 1 then 0.4 else 0.7
  let ao : K := 1
  let light_x_amplitude : K := 7
  let light_x := sinLightPhase * light_x_amplitude
  let lightPos : Vec3 K := ⟨light_x, 5, 3⟩
  let lightRadiance : Vec3 K := ⟨200, 200, 200⟩
  PBRShading sq p normal V albedo metallic roughness ao lightPos lightRadiance

/-- Horizon sky color constant from main in shader.frag. -/
def horizonSkyColor : Vec3 K := ⟨0.15, 0.45, 0.85⟩

/-- Zenith sky color constant from main in shader.frag. -/
def zenithSkyColor : Vec3 K := ⟨0.05, 0.15, 0.4⟩

/-- Componentwise application of the GLSL pow function to a vec3 with a
common exponent, as in pow(color, vec3(e)). -/
def powV (powf : K → K → K) (v : Vec3 K) (e : K) : Vec3 K :=
  ⟨powf v.x e, powf v.y e, powf v.z e⟩

/-- Sky (miss) branch of main in shader.frag: blend horizon and zenith
colors by a smoothstep of the ray direction's vertical component and gamma
correct the result. -/
def skyBranchColor (powf : K → K → K) (rayDirectionY : K) : Vec3 K :=
  let t_sky := smoothstep 0 0.8 rayDirectionY
  let color := mixV horizonSkyColor zenithSkyColor t_sky
  powV powf color (1 / 2.2)

/-- Hit branch of main in shader.frag: surface shading, Reinhard
tonemapping, gamma correction, and distance fog. -/
def hitBranchColor (sq : K → K) (powf : K → K → K)
    (cosBeatPhase sinLightPhase : K) (rayOrigin rayDirection : Vec3 K)
    (distToSurface materialID_hit : K) : Vec3 K :=
  let hitPoint := rayOrigin + rayDirection * distToSurface
  let normal := calcNormal sq cosBeatPhase hitPoint materialID_hit
  let V := normalize sq (rayOrigin - hitPoint)
  let color := getSurfaceColor sq sinLightPhase hitPoint normal V materialID_hit
  let color := color / (color + (⟨1, 1, 1⟩ : Vec3 K))
  let color := powV powf color (1 / 2.2)
  let fogAmount := smoothstep 10 30 distToSurface
  let fogColor : Vec3 K := horizonSkyColor
  mixV color fogColor fogAmount

/-- Per-pixel pipeline from main in shader.frag: returns the RGB color and
the alpha component written to gl_FragColor.  The cosine of the heartbeat
phase and the sine of the light phase, both functions of u_time, are
passed as values. -/
def mainColor (sq : K → K) (powf : K → K → K)
    (cosBeatPhase sinLightPhase : K) (resolution : K × K)
    (cameraPos cameraLookAt : Vec3 K) (cameraZoom : K)
    (fragCoord : K × K) : Vec3 K × K :=
  let uv : K × K :=
    ((fragCoord.1 - 0.5 * resolution.1) / resolution.2,
      (fragCoord.2 - 0.5 * resolution.2) / resolution.2)
  let rayOrigin := cameraPos
  let rayDirection := getRayDirection sq uv cameraPos cameraLookAt cameraZoom
  let hitResult := raymarch (map sq cosBeatPhase) rayOrigin rayDirection
  let distToSurface := hitResult.1
  let materialID_hit := hitResult.2
  let color :=
    if -0.5 < materialID_hit then
      hitBranchColor sq powf cosBeatPhase sinLightPhase rayOrigin rayDirection
        distToSurface materialID_hit
    else
      skyBranchColor powf rayDirection.y
  (color, 1)

namespace Multi

/-- Sphere SDF from the multi-primitive shader variant, sdSphere. -/
def sdSphere (sq : K → K) (p : Vec3 K) (s : K) : K := glslLength sq p - s

/-- Box SDF from the multi-primitive shader variant, sdBox. -/
def sdBox (sq : K → K) (p b : Vec3 K) : K :=
  let q : Vec3 K := ⟨|p.x| - b.x, |p.y| - b.y, |p.z| - b.z⟩
  glslLength sq ⟨max q.x 0, max q.y 0, max q.z 0⟩ +
    min (max q.x (max q.y q.z)) 0

/-- Torus SDF from the multi-primitive shader variant, sdTorus;
t.1 is the major radius, t.2 the minor radius. -/
def sdTorus (sq : K → K) (p : Vec3 K) (t : K × K) : K :=
  let q : K × K := (sq (p.x * p.x + p.z * p.z) - t.1, p.y)
  sq (q.1 * q.1 + q.2 * q.2) - t.2

/-- Raw heart implicit value from the multi-primitive shader variant,
sdHeartImplicit, with b coefficient 9/200. -/
def sdHeartImplicit (p_obj : Vec3 K) : K :=
  let x2 := p_obj.x * p_obj.x
  let y2 := p_obj.y * p_obj.y
  let z2 := p_obj.z * p_obj.z
  let z3 := z2 * p_obj.z
  let term1_base := x2 + (9 / 4) * y2 + z2 - 1
  let term1 := term1_base * term1_base * term1_base
  let term2 := x2 * z3
  let term3 := (9 / 200) * y2 * z3
  term1 - term2 - term3

/-- Sphere distance term of map in the multi-primitive variant; sinT2 is
the value of sin(u_time * 2.0). -/
def sphereDistAt (sq : K → K) (sinT2 : K) (p : Vec3 K) : K :=
  let sphereRadius := 0.8 + 0.2 * sinT2
  let spherePos : Vec3 K := ⟨0, sphereRadius, 0⟩
  sdSphere sq (p - spherePos) sphereRadius

/-- Box distance term of map in the multi-primitive variant; cosB and
sinB are the values of cos and sin of boxAngle = u_time * 0.5.  The GLSL
mat2 constructor is column major, so rotY_box * pBox.xz is
(cos * x + sin * z, -sin * x + cos * z). -/
def boxDistAt (sq : K → K) (cosB sinB : K) (p : Vec3 K) : K :=
  let boxPos : Vec3 K := ⟨2.5, 0.5, 0⟩
  let boxSize : Vec3 K := ⟨0.5, 0.5, 0.5⟩
  let pBox0 := p - boxPos
  let pBox : Vec3 K :=
    ⟨cosB * pBox0.x + sinB * pBox0.z, pBox0.y, -sinB * pBox0.x + cosB * pBox0.z⟩
  sdBox sq pBox boxSize

/-- Torus distance term of map in the multi-primitive variant. -/
def torusDistAt (sq : K → K) (p : Vec3 K) : K :=
  let torusPos : Vec3 K := ⟨-2, 0.6, 0.5⟩
  let torusRadii : K × K := (0.8, 0.25)
  sdTorus sq (p - torusPos) torusRadii

/-- Heart distance term of map in the multi-primitive variant. -/
def heartDistAt (p : Vec3 K) : K :=
  let heartPos : Vec3 K := ⟨0, 1, -2⟩
  let heartScale : K := 0.8
  let p_heart_local := (p - heartPos) / heartScale
  let raw_heart_val := sdHeartImplicit p_heart_local
  let heartSDF_NormalizationFactor : K := 0.3
  raw_heart_val * heartScale * heartSDF_NormalizationFactor

/-- Ground plane distance term of map in the multi-primitive variant. -/
def planeDistAt (p : Vec3 K) : K := p.y + 0

/-- Scene map of the multi-primitive shader variant: running minimum over
sphere, box, torus, heart and ground plane with strict-less updates,
starting from the 1e10 sentinel with material id 0. -/
def map (sq : K → K) (sinT2 cosB sinB : K) (p : Vec3 K) : K × K :=
  let sceneDist0 : K := 1e10
  let materialID0 : K := 0
  let sphereDist := sphereDistAt sq sinT2 p
  let sd1 := if sphereDist < sceneDist0 then sphereDist else sceneDist0
  let mid1 := if sphereDist < sceneDist0 then (1 : K) else materialID0
  let boxDist := boxDistAt sq cosB sinB p
  let sd2 := if boxDist < sd1 then boxDist else sd1
  let mid2 := if boxDist < sd1 then (2 : K) else mid1
  let torusDist := torusDistAt sq p
  let sd3 := if torusDist < sd2 then torusDist else sd2
  let mid3 := if torusDist < sd2 then (3 : K) else mid2
  let heartDist := heartDistAt p
  let sd4 := if heartDist < sd3 then heartDist else sd3
  let mid4 := if heartDist < sd3 then (4 : K) else mid3
  let planeDist := planeDistAt p
  let sd5 := if planeDist < sd4 then planeDist else sd4
  let mid5 := if planeDist < sd4 then (0 : K) else mid4
  (sd5, mid5)

/-- Minimum of the five primitive distances of the multi-primitive scene,
following the specification's wording for the Distance Field Query. -/
def minDist (sq : K → K) (sinT2 cosB sinB : K) (p : Vec3 K) : K :=
  min (sphereDistAt sq sinT2 p)
    (min (boxDistAt sq cosB sinB p)
      (min (torusDistAt sq p) (min (heartDistAt p) (planeDistAt p))))

/-- Modelled from the spec: the Distance Field Query of the extended
variant returns the minimum signed distance across all primitives together
with the material id of the minimizer, ties resolving to the
earliest-declared primitive in declaration order sphere (1), box (2),
torus (3), heart (4), ground plane (0). -/
def mapSpec (sq : K → K) (sinT2 cosB sinB : K) (p : Vec3 K) : K × K :=
  let m := minDist sq sinT2 cosB sinB p
  let mid : K :=
    if sphereDistAt sq sinT2 p = m then 1
    else if boxDistAt sq cosB sinB p = m then 2
    else if torusDistAt sq p = m then 3
    else if heartDistAt p = m then 4
    else 0
  (m, mid)

end Multi

section Theorems

/-- C1: for every point p in definition space, the analytic gradient
gradHeart p is, component by component, the exact symbolic derivative of
the implicit heart equation eqHeart along the corresponding coordinate
(no finite differencing). -/
theorem gradHeart_is_exact_gradient_of_eqHeart (p : Vec3 ℝ) :
    HasDerivAt (fun s => eqHeart ⟨s, p.y, p.z⟩) (gradHeart p).x p.x ∧
    HasDerivAt (fun s => eqHeart ⟨p.x, s, p.z⟩) (gradHeart p).y p.y ∧
    HasDerivAt (fun s => eqHeart ⟨p.x, p.y, s⟩) (gradHeart p).z p.z := by
  obtain ⟨x, y, z⟩ := p
  refine ⟨?_, ?_, ?_⟩
  · have hs : HasDerivAt (fun s : ℝ => s * s) (1 * x + x * 1) x :=
      (hasDerivAt_id x).mul (hasDerivAt_id x)
    have hb : HasDerivAt (fun s : ℝ => s * s + 2.25 * (y * y) + z * z - 1)
        (1 * x + x * 1) x :=
      ((hs.add_const (2.25 * (y * y))).add_const (z * z)).sub_const 1
    have hb3 := (hb.mul hb).mul hb
    have ht2 : HasDerivAt (fun s : ℝ => s * s * (z * z * z))
        ((1 * x + x * 1) * (z * z * z)) x := hs.mul_const (z * z * z)
    have hfin := (hb3.sub ht2).sub_const (0.1125 * (y * y) * (z * z * z))
    have hfun : (fun s : ℝ => eqHeart ⟨s, y, z⟩) =
        fun s : ℝ =>
          (s * s + 2.25 * (y * y) + z * z - 1) *
              (s * s + 2.25 * (y * y) + z * z - 1) *
              (s * s + 2.25 * (y * y) + z * z - 1) -
            s * s * (z * z * z) - 0.1125 * (y * y) * (z * z * z) := by
      funext s; simp only [eqHeart]
    rw [hfun]
    convert hfin using 1
    simp only [gradHeart]
    ring
  · have hs : HasDerivAt (fun s : ℝ => s * s) (1 * y + y * 1) y :=
      (hasDerivAt_id y).mul (hasDerivAt_id y)
    have hs' : HasDerivAt (fun s : ℝ => 2.25 * (s * s))
        (2.25 * (1 * y + y * 1)) y := hs.const_mul 2.25
    have hb : HasDerivAt (fun s : ℝ => x * x + 2.25 * (s * s) + z * z - 1)
        (2.25 * (1 * y + y * 1)) y :=
      ((hs'.const_add (x * x)).add_const (z * z)).sub_const 1
    have hb3 := (hb.mul hb).mul hb
    have ht3 : HasDerivAt (fun s : ℝ => 0.1125 * (s * s) * (z * z * z))
        (0.1125 * (1 * y + y * 1) * (z * z * z)) y :=
      (hs.const_mul 0.1125).mul_const (z * z * z)
    have hfin := (hb3.sub_const (x * x * (z * z * z))).sub ht3
    have hfun : (fun s : ℝ => eqHeart ⟨x, s, z⟩) =
        fun s : ℝ =>
          (x * x + 2.25 * (s * s) + z * z - 1) *
              (x * x + 2.25 * (s * s) + z * z - 1) *
              (x * x + 2.25 * (s * s) + z * z - 1) -
            x * x * (z * z * z) - 0.1125 * (s * s) * (z * z * z) := by
      funext s; simp only [eqHeart]
    rw [hfun]
    convert hfin using 1
    simp only [gradHeart]
    ring
  · have hs : HasDerivAt (fun s : ℝ => s * s) (1 * z + z * 1) z :=
      (hasDerivAt_id z).mul (hasDerivAt_id z)
    have hb : HasDerivAt (fun s : ℝ => x * x + 2.25 * (y * y) + s * s - 1)
        (1 * z + z * 1) z :=
      ((hs.const_add (x * x + 2.25 * (y * y))).sub_const 1)
    have hb3 := (hb.mul hb).mul hb
    have hcube : HasDerivAt (fun s : ℝ => s * s * s)
        ((1 * z + z * 1) * z + z * z * 1) z := hs.mul (hasDerivAt_id z)
    have ht2 : HasDerivAt (fun s : ℝ => x * x * (s * s * s))
        (x * x * ((1 * z + z * 1) * z + z * z * 1)) z := hcube.const_mul (x * x)
    have ht3 : HasDerivAt (fun s : ℝ => 0.1125 * (y * y) * (s * s * s))
        (0.1125 * (y * y) * ((1 * z + z * 1) * z + z * z * 1)) z :=
      hcube.const_mul (0.1125 * (y * y))
    have hfin := (hb3.sub ht2).sub ht3
    have hfun : (fun s : ℝ => eqHeart ⟨x, y, s⟩) =
        fun s : ℝ =>
          (x * x + 2.25 * (y * y) + s * s - 1) *
              (x * x + 2.25 * (y * y) + s * s - 1) *
              (x * x + 2.25 * (y * y) + s * s - 1) -
            x * x * (s * s * s) - 0.1125 * (y * y) * (s * s * s) := by
      funext s; simp only [eqHeart]
    rw [hfun]
    convert hfin using 1
    simp only [gradHeart]
    ring

/-- The raymarching loop either returns a hit (t, material at the sampled
point) with the sampled distance below the hit threshold and t within
[0, MAX_DIST], or returns the miss pair (MAX_DIST, -1). -/
theorem raymarchAux_cases (mapF : Vec3 K → K × K) (ro rd : Vec3 K)
    (fuel : Nat) : ∀ t0 : K, 0 ≤ t0 → t0 ≤ MAX_DIST →
    (∃ t, 0 ≤ t ∧ t ≤ MAX_DIST ∧
      raymarchAux mapF ro rd fuel t0 = (t, (mapF (ro + t • rd)).2) ∧
      (mapF (ro + t • rd)).1 < HIT_THRESHOLD) ∨
    raymarchAux mapF ro rd fuel t0 = (MAX_DIST, -1) := by
  induction fuel with
  | zero => intro t0 _ _; exact Or.inr rfl
  | succ n ih =>
    intro t0 h0 h1
    simp only [raymarchAux]
    by_cases hhit : (mapF (ro + t0 • rd)).1 < HIT_THRESHOLD
    · rw [if_pos hhit]
      exact Or.inl ⟨t0, h0, h1, rfl, hhit⟩
    · rw [if_neg hhit]
      by_cases hfar : MAX_DIST < t0 + (mapF (ro + t0 • rd)).1
      · rw [if_pos hfar]
        exact Or.inr rfl
      · rw [if_neg hfar]
        refine ih (t0 + (mapF (ro + t0 • rd)).1) ?_ (not_lt.1 hfar)
        have hd : (0 : K) ≤ (mapF (ro + t0 • rd)).1 :=
          le_trans (by norm_num [HIT_THRESHOLD]) (not_lt.1 hhit)
        linarith

/-- The raymarching loop samples the scene map at most once per unit of
fuel. -/
theorem raymarchSamples_le_fuel (mapF : Vec3 K → K × K) (ro rd : Vec3 K)
    (fuel : Nat) : ∀ t0 : K, raymarchSamples mapF ro rd fuel t0 ≤ fuel := by
  induction fuel with
  | zero => intro t0; simp [raymarchSamples]
  | succ n ih =>
    intro t0
    simp only [raymarchSamples]
    split_ifs
    · omega
    · omega
    · have := ih (t0 + (mapF (ro + t0 • rd)).1)
      omega

/-- The scene map of shader.frag returns material id 1 or 0, never the
miss sentinel -1. -/
theorem map_snd_ne_neg_one (sq : K → K) (c : K) (p : Vec3 K) :
    (map sq c p).2 ≠ -1 := by
  simp only [map]
  split_ifs <;> norm_num

/-- C2: for every ray origin and direction, the sphere tracer samples the
scene map at most MAX_STEPS = 100 times and terminates, returning either a
hit pair (t, material id of the sample at origin + t * direction) whose
sampled distance is below HIT_THRESHOLD = 0.001, or the miss pair
(MAX_DIST, -1) = (100, -1) when the travel distance cap or the iteration
cap is exhausted. -/
theorem raymarch_terminates (sq : ℝ → ℝ) (c : ℝ) (ro rd : Vec3 ℝ) :
    raymarchSamples (map sq c) ro rd MAX_STEPS 0 ≤ MAX_STEPS ∧
    ((∃ t, raymarch (map sq c) ro rd = (t, (map sq c (ro + t • rd)).2) ∧
        (map sq c (ro + t • rd)).1 < HIT_THRESHOLD) ∨
      raymarch (map sq c) ro rd = (MAX_DIST, -1)) := by
  refine ⟨raymarchSamples_le_fuel _ _ _ _ 0, ?_⟩
  rcases raymarchAux_cases (map sq c) ro rd MAX_STEPS 0 le_rfl
      (by norm_num [MAX_DIST]) with ⟨t, _, _, heq, hhit⟩ | h
  · exact Or.inl ⟨t, heq, hhit⟩
  · exact Or.inr h

/-- C10: for every ray, a miss report (material id -1) from the sphere
tracer carries distance exactly MAX_DIST = 100, and a hit report carries a
distance t with 0 ≤ t ≤ 100. -/
theorem raymarch_result_bounds (sq : K → K) (c : K) (ro rd : Vec3 K) :
    ((raymarch (map sq c) ro rd).2 = -1 →
      (raymarch (map sq c) ro rd).1 = MAX_DIST) ∧
    ((raymarch (map sq c) ro rd).2 ≠ -1 →
      0 ≤ (raymarch (map sq c) ro rd).1 ∧
        (raymarch (map sq c) ro rd).1 ≤ MAX_DIST) := by
  rcases raymarchAux_cases (map sq c) ro rd MAX_STEPS 0 le_rfl
      (by norm_num [MAX_DIST]) with ⟨t, ht0, ht1, heq, _⟩ | h
  · have heq' : raymarch (map sq c) ro rd = (t, (map sq c (ro + t • rd)).2) := heq
    constructor
    · intro hm
      rw [heq'] at hm
      exact absurd hm (map_snd_ne_neg_one sq c _)
    · intro _
      rw [heq']
      exact ⟨ht0, ht1⟩
  · have h' : raymarch (map sq c) ro rd = (MAX_DIST, -1) := h
    constructor
    · intro _; rw [h']
    · intro hm; rw [h'] at hm; simp at hm

/-- Witness for C10: over the rationals with the identity in place of the
square root, a ray starting at the origin (inside the heart) reports an
immediate hit, whose distance the theorem bounds within [0, 100]. -/
theorem raymarch_result_bounds_witness :
    (raymarch (map (id : ℚ → ℚ) 0) ⟨0, 0, 0⟩ ⟨0, 0, 0⟩).2 ≠ -1 ∧
    (0 ≤ (raymarch (map (id : ℚ → ℚ) 0) ⟨0, 0, 0⟩ ⟨0, 0, 0⟩).1 ∧
      (raymarch (map (id : ℚ → ℚ) 0) ⟨0, 0, 0⟩ ⟨0, 0, 0⟩).1 ≤ MAX_DIST) := by
  have heval : raymarch (map (id : ℚ → ℚ) 0) ⟨0, 0, 0⟩ ⟨0, 0, 0⟩ = (0, 1) := by
    rw [raymarch, show (MAX_STEPS : Nat) = Nat.succ 99 from rfl, raymarchAux]
    norm_num [map, sdHeart, eqHeart, gradHeart, getHeartTransformDataForPoint,
      getHeartAnimationScales, glslLength, dot, HIT_THRESHOLD]
  exact ⟨by rw [heval]; norm_num,
    (raymarch_result_bounds id 0 ⟨0, 0, 0⟩ ⟨0, 0, 0⟩).2 (by rw [heval]; norm_num)⟩

/-- C3 counterexample: at elapsed time 0 the scale triple of
getHeartAnimationScales has product 1 / (1 + 1e-7), not exactly 1. -/
theorem scales_product_ne_one_at_time_zero :
    (getHeartAnimationScales (Real.cos (0 * beatFreq))).x *
      (getHeartAnimationScales (Real.cos (0 * beatFreq))).y *
      (getHeartAnimationScales (Real.cos (0 * beatFreq))).z ≠ 1 := by
  rw [show (0 : ℝ) * beatFreq = 0 by ring, Real.cos_zero]
  simp only [getHeartAnimationScales]
  norm_num

/-- C3 as amended: for every cosine value of the beat phase, the scale
triple multiplies to sx * sy / (sx * sy + 1e-7), which lies within 1.1e-7
of 1; sz is the reciprocal of sx * sy + 1e-7 rather than of sx * sy. -/
theorem scales_product_close_to_one (c : K) (hc1 : -1 ≤ c) (hc2 : c ≤ 1) :
    |(getHeartAnimationScales c).x * (getHeartAnimationScales c).y *
        (getHeartAnimationScales c).z - 1| ≤ 1.1e-7 ∧
    (getHeartAnimationScales c).z =
      1 / ((getHeartAnimationScales c).x * (getHeartAnimationScales c).y +
        1e-7) := by
  simp only [getHeartAnimationScales]
  constructor
  · set s : K := 1 - 0.02 * (1 - (c + 1) * 0.5) with hs
    have hs1 : (0.98 : K) ≤ s := by rw [hs]; nlinarith
    have hs2 : s ≤ 1 := by rw [hs]; nlinarith
    have hq1 : (0.9604 : K) ≤ s * s := by nlinarith
    have hpos : (0 : K) < s * s + 1e-7 := by nlinarith
    have hrw : s * s * (1 / (s * s + 1e-7)) - 1 = -(1e-7 / (s * s + 1e-7)) := by
      field_simp
    rw [hrw, abs_neg, abs_of_nonneg (by positivity)]
    rw [div_le_iff₀ hpos]
    nlinarith
  · trivial

/-- Witness for C3 as amended, at cosine value 0 over the rationals. -/
theorem scales_product_close_to_one_witness :
    (-1 : ℚ) ≤ 0 ∧ (0 : ℚ) ≤ 1 ∧
    |(getHeartAnimationScales (0 : ℚ)).x * (getHeartAnimationScales (0 : ℚ)).y *
        (getHeartAnimationScales (0 : ℚ)).z - 1| ≤ 1.1e-7 :=
  ⟨by norm_num, by norm_num,
    (scales_product_close_to_one (0 : ℚ) (by norm_num) (by norm_num)).1⟩

/-- C8 counterexample: one nominal 2-second beat period after time 0 the
scale triple is not numerically identical to the one at time 0, because
the shader's PI constant is rational while the true period is
2 * pi / beatFreq. -/
theorem scales_not_periodic_two_seconds :
    getHeartAnimationScales (Real.cos ((0 + 1 * 2) * beatFreq)) ≠
      getHeartAnimationScales (Real.cos (0 * beatFreq)) := by
  intro h
  have hx := congrArg Vec3.x h
  simp only [getHeartAnimationScales] at hx
  norm_num at hx
  have hc : Real.cos (2 * beatFreq) = 1 := by linarith
  rcases (Real.cos_eq_one_iff _).1 hc with ⟨n, hn⟩
  have hn0 : (n : ℝ) ≠ 0 := by
    intro h0
    rw [h0] at hn
    norm_num [beatFreq, shaderPI] at hn
  apply irrational_pi
  refine ⟨(3141592653589793 : ℚ) / (1000000000000000 * n), ?_⟩
  have hb : (beatFreq : ℝ) = 3141592653589793 / 1000000000000000 := by
    norm_num [beatFreq, shaderPI]
  rw [hb] at hn
  push_cast
  rw [eq_comm, eq_div_iff (mul_ne_zero (by norm_num) hn0)]
  linear_combination (500000000000000 : ℝ) * hn

/-- C8 as amended: the heartbeat animation is exactly periodic with period
2 * pi / beatFreq (approximately 2.0000000000000002 seconds, since the
shader's PI constant is not exactly pi): for every time t and natural n,
the scale triple at t + n * (2 * pi / beatFreq) equals the one at t. -/
theorem scales_periodic_exact_period (t : ℝ) (n : ℕ) :
    getHeartAnimationScales
        (Real.cos ((t + n * (2 * Real.pi / beatFreq)) * beatFreq)) =
      getHeartAnimationScales (Real.cos (t * beatFreq)) := by
  have hb : (beatFreq : ℝ) ≠ 0 := by norm_num [beatFreq, shaderPI]
  have harg : (t + n * (2 * Real.pi / beatFreq)) * beatFreq =
      t * beatFreq + (n : ℤ) * (2 * Real.pi) := by
    push_cast
    field_simp
  rw [harg, Real.cos_add_int_mul_two_pi]

/-- Modelled from the spec, section 4.3: the heart's distance estimate
d = F(p_def) / (norm of (grad F(p_def) / scales) + epsilon), where p_def is
the world point swizzled to the definition orientation and divided
componentwise by the animation scale triple, and the gradient is divided
componentwise by the scale triple before taking its norm. -/
def heartDistanceSpec (sq : K → K) (cosBeatPhase : K) (p : Vec3 K) : K :=
  let scales := getHeartAnimationScales cosBeatPhase
  let p_def : Vec3 K := (⟨p.x, p.z, p.y⟩ : Vec3 K) / scales
  eqHeart p_def /
    (sq (dot (gradHeart p_def / scales) (gradHeart p_def / scales)) + 1e-9)

/-- C4: the Distance Field Query map of shader.frag computes the heart's
distance estimate exactly by the anisotropically corrected formula
F(p_def) / (norm of (grad F(p_def) / scales) + 1e-9) of the spec, and
returns it (with material id 1) whenever it beats the 1e10 sentinel. -/
theorem map_computes_spec_distance (sq : K → K) (c : K) (p : Vec3 K) :
    sdHeart sq (getHeartTransformDataForPoint c p).p_definition_space
        (getHeartTransformDataForPoint c p).animation_scales =
      heartDistanceSpec sq c p ∧
    map sq c p =
      if heartDistanceSpec sq c p < 1e10 then (heartDistanceSpec sq c p, 1)
      else (1e10, 0) := by
  have hmain : sdHeart sq (getHeartTransformDataForPoint c p).p_definition_space
      (getHeartTransformDataForPoint c p).animation_scales =
      heartDistanceSpec sq c p := by
    simp only [sdHeart, heartDistanceSpec, getHeartTransformDataForPoint,
      glslLength, Vec3.sub_def, sub_zero]
  refine ⟨hmain, ?_⟩
  simp only [map, hmain]

/-- Modelled from the spec, claim C5: the sky branch with the Reinhard
tonemap c / (c + 1) applied componentwise before the gamma encode, exactly
as in the hit branch. -/
def skySpecReinhardThenGamma (powf : K → K → K) (rayDirectionY : K) :
    Vec3 K :=
  let t_sky := smoothstep 0 0.8 rayDirectionY
  let color := mixV horizonSkyColor zenithSkyColor t_sky
  let color := color / (color + (⟨1, 1, 1⟩ : Vec3 K))
  powV powf color (1 / 2.2)

/-- C5 counterexample: for a ray pointing straight up, the displayed sky
color of shader.frag differs from the Reinhard-then-gamma pipeline of the
hit branch: the miss branch gamma-encodes the blended sky color without
tonemapping it. -/
theorem sky_branch_not_reinhard_tonemapped :
    skyBranchColor (fun a b => Real.rpow a b) 1 ≠
      skySpecReinhardThenGamma (fun a b => Real.rpow a b) 1 := by
  intro h
  have hx := congrArg Vec3.x h
  simp only [skyBranchColor, skySpecReinhardThenGamma, smoothstep, clamp,
    mixV, mix, powV, horizonSkyColor, zenithSkyColor, Vec3.div_def,
    Vec3.add_def, min_def, max_def] at hx
  norm_num at hx
  have hlt : ((1 : ℝ) / 21) ^ ((5 : ℝ) / 11) < ((1 : ℝ) / 20) ^ ((5 : ℝ) / 11) :=
    Real.rpow_lt_rpow (by norm_num) (by norm_num) (by norm_num)
  rw [hx] at hlt
  exact lt_irrefl _ hlt

/-- Modelled from the spec as amended: the sky branch gamma-encodes the
blended sky color directly, with no Reinhard tonemap. -/
def skySpecGammaOnly (powf : K → K → K) (rayDirectionY : K) : Vec3 K :=
  powV powf (mixV horizonSkyColor zenithSkyColor
    (smoothstep 0 0.8 rayDirectionY)) (1 / 2.2)

/-- C5 as amended: for every ray that misses, the displayed sky color is
the blended sky color passed through the gamma encode pow(c, 1/2.2) only;
the Reinhard tonemap is applied in the hit branch but not in the sky
branch. -/
theorem sky_branch_is_gamma_only (powf : K → K → K) (rayDirectionY : K) :
    skyBranchColor powf rayDirectionY = skySpecGammaOnly powf rayDirectionY :=
  rfl

end Theorems

/-- Componentwise nonnegativity of a vec3 value. -/
def Vec3.Nonneg (v : Vec3 K) : Prop := 0 ≤ v.x ∧ 0 ≤ v.y ∧ 0 ≤ v.z

/-- Componentwise membership of a vec3 value in the unit interval. -/
def Vec3.InUnit (v : Vec3 K) : Prop :=
  (0 ≤ v.x ∧ v.x ≤ 1) ∧ (0 ≤ v.y ∧ v.y ≤ 1) ∧ (0 ≤ v.z ∧ v.z ≤ 1)

section Theorems2

theorem dot_self_nonneg (v : Vec3 K) : 0 ≤ dot v v := by
  simp only [dot]
  nlinarith [mul_self_nonneg v.x, mul_self_nonneg v.y, mul_self_nonneg v.z]

theorem clamp01_nonneg (x : K) : 0 ≤ clamp x 0 1 :=
  le_min (le_max_right _ _) zero_le_one

theorem clamp01_le_one (x : K) : clamp x 0 1 ≤ 1 := min_le_right _ _

theorem mix_mem_unit (a b t : K) (ha0 : 0 ≤ a) (ha1 : a ≤ 1) (hb0 : 0 ≤ b)
    (hb1 : b ≤ 1) (ht0 : 0 ≤ t) (ht1 : t ≤ 1) :
    0 ≤ mix a b t ∧ mix a b t ≤ 1 := by
  simp only [mix]
  constructor <;> nlinarith

theorem smoothstep_mem_unit (e0 e1 x : K) :
    0 ≤ smoothstep e0 e1 x ∧ smoothstep e0 e1 x ≤ 1 := by
  simp only [smoothstep]
  have h0 := clamp01_nonneg ((x - e0) / (e1 - e0))
  have h1 := clamp01_le_one ((x - e0) / (e1 - e0))
  set c := clamp ((x - e0) / (e1 - e0)) 0 1
  have key : 0 ≤ (1 - c) * (1 - c) * (1 + 2 * c) :=
    mul_nonneg (mul_nonneg (by linarith) (by linarith)) (by linarith)
  constructor <;> nlinarith

theorem D_GGX_nonneg (NdotH roughness : K) : 0 ≤ D_GGX NdotH roughness := by
  simp only [D_GGX]
  apply div_nonneg (mul_self_nonneg _)
  have hd := mul_self_nonneg
    (NdotH * NdotH * (roughness * roughness * (roughness * roughness) - 1) + 1)
  have hpi : (0 : K) < shaderPI := by norm_num [shaderPI]
  nlinarith

theorem G_SchlickGGX_nonneg (NdotVal roughness : K) (hN : 0 ≤ NdotVal)
    (hk : (roughness + 1) * (roughness + 1) / 8 ≤ 1) :
    0 ≤ G_SchlickGGX NdotVal roughness := by
  simp only [G_SchlickGGX]
  apply div_nonneg hN
  have hk0 : (0 : K) ≤ (roughness + 1) * (roughness + 1) / 8 :=
    div_nonneg (mul_self_nonneg _) (by norm_num)
  nlinarith

theorem G_Smith_nonneg (NdotV NdotL roughness : K) (h1 : 0 ≤ NdotV)
    (h2 : 0 ≤ NdotL) (hk : (roughness + 1) * (roughness + 1) / 8 ≤ 1) :
    0 ≤ G_Smith NdotV NdotL roughness :=
  mul_nonneg (G_SchlickGGX_nonneg _ _ h1 hk) (G_SchlickGGX_nonneg _ _ h2 hk)

theorem F_Schlick_mem_unit (cosTheta : K) (F0 : Vec3 K) (h : Vec3.InUnit F0) :
    Vec3.InUnit (F_Schlick cosTheta F0) := by
  obtain ⟨⟨hx0, hx1⟩, ⟨hy0, hy1⟩, ⟨hz0, hz1⟩⟩ := h
  have hq0 : (0 : K) ≤ clamp (1 - cosTheta) 0 1 ^ (5 : Nat) :=
    pow_nonneg (clamp01_nonneg _) _
  have hq1 : clamp (1 - cosTheta) 0 1 ^ (5 : Nat) ≤ 1 :=
    pow_le_one₀ (clamp01_nonneg _) (clamp01_le_one _)
  simp only [F_Schlick, Vec3.sub_def, Vec3.mulS_def, Vec3.add_def, Vec3.InUnit]
  refine ⟨⟨?_, ?_⟩, ⟨?_, ?_⟩, ⟨?_, ?_⟩⟩ <;> nlinarith

theorem mixV_F0_mem_unit (albedo : Vec3 K) (m : K) (halb : Vec3.InUnit albedo)
    (hm0 : 0 ≤ m) (hm1 : m ≤ 1) :
    Vec3.InUnit (mixV ⟨0.04, 0.04, 0.04⟩ albedo m) := by
  obtain ⟨⟨hx0, hx1⟩, ⟨hy0, hy1⟩, ⟨hz0, hz1⟩⟩ := halb
  simp only [mixV, Vec3.InUnit]
  refine ⟨mix_mem_unit _ _ _ (by norm_num) (by norm_num) hx0 hx1 hm0 hm1,
    mix_mem_unit _ _ _ (by norm_num) (by norm_num) hy0 hy1 hm0 hm1,
    mix_mem_unit _ _ _ (by norm_num) (by norm_num) hz0 hz1 hm0 hm1⟩

/-- Nonnegativity of the direct lighting contribution of PBRShading, for
any scene geometry, any albedo in the unit cube, any metallic in [0, 1],
any roughness whose direct-lighting k stays in [0, 1], and any
componentwise nonnegative light intensity. -/
theorem PBRdirectContrib_nonneg (sq : K → K) (p_surf N_surf V_eye albedo : Vec3 K)
    (m r : K) (lp li : Vec3 K) (halb : Vec3.InUnit albedo)
    (hm0 : 0 ≤ m) (hm1 : m ≤ 1) (hk : (r + 1) * (r + 1) / 8 ≤ 1)
    (hli : Vec3.Nonneg li) :
    Vec3.Nonneg (PBRdirectContrib sq p_surf N_surf V_eye albedo m r lp li) := by
  obtain ⟨hlix, hliy, hliz⟩ := hli
  have hNdotL : (0 : K) ≤ max (dot N_surf (normalize sq (lp - p_surf))) 0 :=
    le_max_right _ _
  have hNdotV : (0 : K) ≤ max (dot N_surf V_eye) 0.001 :=
    le_trans (by norm_num) (le_max_right _ _)
  have hatt : (0 : K) ≤ 1 / (dot (lp - p_surf) (lp - p_surf) + 1) :=
    div_nonneg zero_le_one (by linarith [dot_self_nonneg (lp - p_surf)])
  have hF := F_Schlick_mem_unit
    (max (dot V_eye (normalize sq (V_eye + normalize sq (lp - p_surf)))) 0)
    (mixV ⟨0.04, 0.04, 0.04⟩ albedo m) (mixV_F0_mem_unit albedo m halb hm0 hm1)
  obtain ⟨⟨hFx0, hFx1⟩, ⟨hFy0, hFy1⟩, ⟨hFz0, hFz1⟩⟩ := hF
  have hD := D_GGX_nonneg
    (max (dot N_surf (normalize sq (V_eye + normalize sq (lp - p_surf)))) 0) r
  have hG := G_Smith_nonneg (max (dot N_surf V_eye) 0.001)
    (max (dot N_surf (normalize sq (lp - p_surf))) 0) r hNdotV hNdotL hk
  have hden : (0 : K) ≤ 4 * max (dot N_surf V_eye) 0.001 *
      max (dot N_surf (normalize sq (lp - p_surf))) 0 + 0.001 := by
    have := mul_nonneg (mul_nonneg (by norm_num : (0:K) ≤ 4) hNdotV) hNdotL
    linarith
  have hpi : (0 : K) ≤ shaderPI := by norm_num [shaderPI]
  simp only [PBRdirectContrib, Vec3.Nonneg, Vec3.add_def, Vec3.sub_def,
    Vec3.mul_def, Vec3.mulS_def, Vec3.div_def, Vec3.divS_def] at *
  refine ⟨?_, ?_, ?_⟩ <;>
    apply mul_nonneg (mul_nonneg (add_nonneg ?_ ?_) (mul_nonneg ?_ hatt)) hNdotL
  · exact div_nonneg (mul_nonneg (mul_nonneg (by linarith) (by linarith))
      halb.1.1) hpi
  · exact div_nonneg (mul_nonneg (mul_nonneg hD hG) hFx0) hden
  · exact hlix
  · exact div_nonneg (mul_nonneg (mul_nonneg (by linarith) (by linarith))
      halb.2.1.1) hpi
  · exact div_nonneg (mul_nonneg (mul_nonneg hD hG) hFy0) hden
  · exact hliy
  · exact div_nonneg (mul_nonneg (mul_nonneg (by linarith) (by linarith))
      halb.2.2.1) hpi
  · exact div_nonneg (mul_nonneg (mul_nonneg hD hG) hFz0) hden
  · exact hliz

/-- Nonnegativity of the ambient contribution of PBRShading. -/
theorem PBRambientContrib_nonneg (albedo : Vec3 K) (ao : K)
    (halb : Vec3.Nonneg albedo) (hao : 0 ≤ ao) :
    Vec3.Nonneg (PBRambientContrib albedo ao) := by
  obtain ⟨hx, hy, hz⟩ := halb
  simp only [PBRambientContrib, Vec3.Nonneg, Vec3.mul_def, Vec3.mulS_def]
  refine ⟨?_, ?_, ?_⟩ <;> apply mul_nonneg (mul_nonneg (by norm_num) ?_) hao
  · exact hx
  · exact hy
  · exact hz

/-- Nonnegativity of the full PBRShading output. -/
theorem PBRShading_nonneg (sq : K → K) (p_surf N_surf V_eye albedo : Vec3 K)
    (m r ao : K) (lp li : Vec3 K) (halb : Vec3.InUnit albedo)
    (hm0 : 0 ≤ m) (hm1 : m ≤ 1) (hk : (r + 1) * (r + 1) / 8 ≤ 1)
    (hao : 0 ≤ ao) (hli : Vec3.Nonneg li) :
    Vec3.Nonneg (PBRShading sq p_surf N_surf V_eye albedo m r ao lp li) := by
  have h1 := PBRambientContrib_nonneg albedo ao
    ⟨halb.1.1, halb.2.1.1, halb.2.2.1⟩ hao
  have h2 := PBRdirectContrib_nonneg sq p_surf N_surf V_eye albedo m r lp li
    halb hm0 hm1 hk hli
  obtain ⟨h1x, h1y, h1z⟩ := h1
  obtain ⟨h2x, h2y, h2z⟩ := h2
  exact ⟨add_nonneg h1x h2x, add_nonneg h1y h2y, add_nonneg h1z h2z⟩

/-- C7: with metallic = 0 and roughness = 0.5, the direct lighting
contribution of the PBR shader is componentwise non-negative for every
geometric configuration, and whenever the clamped NdotL equals 0 the
direct contribution is exactly zero, so PBRShading returns the ambient
contribution alone. -/
theorem PBR_energy_sanity (sq : K → K) (p_surf N_surf V_eye albedo : Vec3 K)
    (ao : K) (lp li : Vec3 K) (halb : Vec3.InUnit albedo)
    (hli : Vec3.Nonneg li) :
    Vec3.Nonneg (PBRdirectContrib sq p_surf N_surf V_eye albedo 0 0.5 lp li) ∧
    (max (dot N_surf (normalize sq (lp - p_surf))) 0 = 0 →
      PBRShading sq p_surf N_surf V_eye albedo 0 0.5 ao lp li =
        PBRambientContrib albedo ao) := by
  constructor
  · exact PBRdirectContrib_nonneg sq _ _ _ _ _ _ _ _ halb le_rfl zero_le_one
      (by norm_num) hli
  · intro h0
    simp only [PBRShading, PBRdirectContrib]
    rw [h0]
    apply Vec3.ext <;>
      simp [Vec3.add_def, Vec3.mul_def, Vec3.mulS_def, Vec3.sub_def]

/-- Witness for C7 over the rationals: red albedo, unit normal and view
vectors, the shader's light radiance. -/
theorem PBR_energy_sanity_witness :
    Vec3.InUnit (⟨1, 0, 0⟩ : Vec3 ℚ) ∧ Vec3.Nonneg (⟨200, 200, 200⟩ : Vec3 ℚ) ∧
    Vec3.Nonneg (PBRdirectContrib (id : ℚ → ℚ) ⟨0, 0, 0⟩ ⟨0, 1, 0⟩ ⟨0, 1, 0⟩
      ⟨1, 0, 0⟩ 0 0.5 ⟨0, 5, 0⟩ ⟨200, 200, 200⟩) :=
  ⟨by norm_num [Vec3.InUnit], by norm_num [Vec3.Nonneg],
    (PBR_energy_sanity id ⟨0, 0, 0⟩ ⟨0, 1, 0⟩ ⟨0, 1, 0⟩ ⟨1, 0, 0⟩ 1 ⟨0, 5, 0⟩
      ⟨200, 200, 200⟩ (by norm_num [Vec3.InUnit]) (by norm_num [Vec3.Nonneg])).1⟩

theorem mixV_mem_unit (a b : Vec3 K) (t : K) (ha : Vec3.InUnit a)
    (hb : Vec3.InUnit b) (ht0 : 0 ≤ t) (ht1 : t ≤ 1) :
    Vec3.InUnit (mixV a b t) := by
  obtain ⟨⟨hax0, hax1⟩, ⟨hay0, hay1⟩, ⟨haz0, haz1⟩⟩ := ha
  obtain ⟨⟨hbx0, hbx1⟩, ⟨hby0, hby1⟩, ⟨hbz0, hbz1⟩⟩ := hb
  exact ⟨mix_mem_unit _ _ _ hax0 hax1 hbx0 hbx1 ht0 ht1,
    mix_mem_unit _ _ _ hay0 hay1 hby0 hby1 ht0 ht1,
    mix_mem_unit _ _ _ haz0 haz1 hbz0 hbz1 ht0 ht1⟩

theorem reinhardV_mem_unit (v : Vec3 K) (h : Vec3.Nonneg v) :
    Vec3.InUnit (v / (v + (⟨1, 1, 1⟩ : Vec3 K))) := by
  obtain ⟨hx, hy, hz⟩ := h
  simp only [Vec3.div_def, Vec3.add_def, Vec3.InUnit]
  refine ⟨⟨?_, ?_⟩, ⟨?_, ?_⟩, ⟨?_, ?_⟩⟩
  · exact div_nonneg hx (by linarith)
  · rw [div_le_one (by linarith)]; linarith
  · exact div_nonneg hy (by linarith)
  · rw [div_le_one (by linarith)]; linarith
  · exact div_nonneg hz (by linarith)
  · rw [div_le_one (by linarith)]; linarith

theorem powV_rpow_mem_unit (v : Vec3 ℝ) (h : Vec3.InUnit v) :
    Vec3.InUnit (powV (fun a b => Real.rpow a b) v (1 / 2.2)) := by
  obtain ⟨⟨hx0, hx1⟩, ⟨hy0, hy1⟩, ⟨hz0, hz1⟩⟩ := h
  refine ⟨⟨Real.rpow_nonneg hx0 _, Real.rpow_le_one hx0 hx1 (by norm_num)⟩,
    ⟨Real.rpow_nonneg hy0 _, Real.rpow_le_one hy0 hy1 (by norm_num)⟩,
    ⟨Real.rpow_nonneg hz0 _, Real.rpow_le_one hz0 hz1 (by norm_num)⟩⟩

theorem getSurfaceColor_nonneg (sq : K → K) (sinLightPhase : K)
    (p normal V : Vec3 K) (materialID : K) :
    Vec3.Nonneg (getSurfaceColor sq sinLightPhase p normal V materialID) := by
  simp only [getSurfaceColor]
  split_ifs with h
  · exact PBRShading_nonneg _ _ _ _ _ _ _ _ _ _ (by norm_num [Vec3.InUnit])
      (by norm_num) (by norm_num) (by norm_num) (by norm_num)
      (by norm_num [Vec3.Nonneg])
  · exact PBRShading_nonneg _ _ _ _ _ _ _ _ _ _ (by norm_num [Vec3.InUnit])
      (by norm_num) (by norm_num) (by norm_num) (by norm_num)
      (by norm_num [Vec3.Nonneg])

theorem hitBranchColor_mem_unit (sq : ℝ → ℝ) (cB sL : ℝ) (ro rd : Vec3 ℝ)
    (d mid : ℝ) :
    Vec3.InUnit (hitBranchColor sq (fun a b => Real.rpow a b) cB sL ro rd d mid) := by
  simp only [hitBranchColor]
  apply mixV_mem_unit
  · apply powV_rpow_mem_unit
    apply reinhardV_mem_unit
    apply getSurfaceColor_nonneg
  · norm_num [Vec3.InUnit, horizonSkyColor]
  · exact (smoothstep_mem_unit 10 30 d).1
  · exact (smoothstep_mem_unit 10 30 d).2

theorem skyBranchColor_mem_unit (rdY : ℝ) :
    Vec3.InUnit (skyBranchColor (fun a b => Real.rpow a b) rdY) := by
  simp only [skyBranchColor]
  apply powV_rpow_mem_unit
  apply mixV_mem_unit
  · norm_num [Vec3.InUnit, horizonSkyColor]
  · norm_num [Vec3.InUnit, zenithSkyColor]
  · exact (smoothstep_mem_unit 0 0.8 rdY).1
  · exact (smoothstep_mem_unit 0 0.8 rdY).2

/-- C6: for every per-frame input and every pixel coordinate, each
component of the RGB color output of the per-pixel pipeline of shader.frag
lies in [0, 1] and the alpha component is exactly 1. -/
theorem mainColor_output_in_unit (sq : ℝ → ℝ) (cB sL : ℝ) (res : ℝ × ℝ)
    (camPos lookAt : Vec3 ℝ) (zoom : ℝ) (fragCoord : ℝ × ℝ) :
    Vec3.InUnit (mainColor sq (fun a b => Real.rpow a b) cB sL res camPos
      lookAt zoom fragCoord).1 ∧
    (mainColor sq (fun a b => Real.rpow a b) cB sL res camPos lookAt zoom
      fragCoord).2 = 1 := by
  constructor
  · simp only [mainColor]
    split_ifs with h
    · apply hitBranchColor_mem_unit
    · apply skyBranchColor_mem_unit
  · rfl

set_option maxHeartbeats 1600000 in
/-- Running strict-less minimum selection over five distances starting
from a sentinel equals, whenever some distance beats the sentinel, the
five-way minimum paired with the label of the earliest distance attaining
it (labels 1, 2, 3, 4 and 0 in declaration order). -/
theorem minChain_step (big d1 d2 d3 d4 d5 : K)
    (hm : min d1 (min d2 (min d3 (min d4 d5))) < big) :
    (let sd1 := if d1 < big then d1 else big
     let mid1 := if d1 < big then (1 : K) else 0
     let sd2 := if d2 < sd1 then d2 else sd1
     let mid2 := if d2 < sd1 then (2 : K) else mid1
     let sd3 := if d3 < sd2 then d3 else sd2
     let mid3 := if d3 < sd2 then (3 : K) else mid2
     let sd4 := if d4 < sd3 then d4 else sd3
     let mid4 := if d4 < sd3 then (4 : K) else mid3
     let sd5 := if d5 < sd4 then d5 else sd4
     let mid5 := if d5 < sd4 then (0 : K) else mid4
     (sd5, mid5)) =
    (let m := min d1 (min d2 (min d3 (min d4 d5)))
     (m, if d1 = m then (1 : K) else if d2 = m then 2 else if d3 = m then 3
       else if d4 = m then 4 else 0)) := by
  dsimp only
  set m := min d1 (min d2 (min d3 (min d4 d5))) with hmdef
  have hle1 : m ≤ d1 := min_le_left _ _
  have h25 : m ≤ min d2 (min d3 (min d4 d5)) := min_le_right _ _
  have hle2 : m ≤ d2 := h25.trans (min_le_left _ _)
  have h35 : m ≤ min d3 (min d4 d5) := h25.trans (min_le_right _ _)
  have hle3 : m ≤ d3 := h35.trans (min_le_left _ _)
  have h45 : m ≤ min d4 d5 := h35.trans (min_le_right _ _)
  have hle4 : m ≤ d4 := h45.trans (min_le_left _ _)
  have hle5 : m ≤ d5 := h45.trans (min_le_right _ _)
  by_cases h1 : d1 = m
  · rw [if_pos h1]
    split_ifs <;> simp only [Prod.mk.injEq] <;> refine ⟨?_, ?_⟩ <;>
      first | trivial | linarith
  · have hlt1 : m < d1 := hle1.lt_of_ne fun h => h1 h.symm
    by_cases h2 : d2 = m
    · rw [if_neg h1, if_pos h2]
      split_ifs <;> simp only [Prod.mk.injEq] <;> refine ⟨?_, ?_⟩ <;>
        first | trivial | linarith
    · have hlt2 : m < d2 := hle2.lt_of_ne fun h => h2 h.symm
      by_cases h3 : d3 = m
      · rw [if_neg h1, if_neg h2, if_pos h3]
        split_ifs <;> simp only [Prod.mk.injEq] <;> refine ⟨?_, ?_⟩ <;>
          first | trivial | linarith
      · have hlt3 : m < d3 := hle3.lt_of_ne fun h => h3 h.symm
        by_cases h4 : d4 = m
        · rw [if_neg h1, if_neg h2, if_neg h3, if_pos h4]
          split_ifs <;> simp only [Prod.mk.injEq] <;> refine ⟨?_, ?_⟩ <;>
            first | trivial | linarith
        · have hlt4 : m < d4 := hle4.lt_of_ne fun h => h4 h.symm
          have h5 : d5 = m := by
            rcases min_choice d1 (min d2 (min d3 (min d4 d5))) with h | h
            · exact absurd (hmdef.trans h).symm h1
            · rcases min_choice d2 (min d3 (min d4 d5)) with hb | hb
              · exact absurd (hmdef.trans (h.trans hb)).symm h2
              · rcases min_choice d3 (min d4 d5) with hc | hc
                · exact absurd (hmdef.trans ((h.trans hb).trans hc)).symm h3
                · rcases min_choice d4 d5 with he | he
                  · exact absurd
                      (hmdef.trans (((h.trans hb).trans hc).trans he)).symm h4
                  · exact (hmdef.trans (((h.trans hb).trans hc).trans he)).symm
          rw [if_neg h1, if_neg h2, if_neg h3, if_neg h4]
          split_ifs <;> simp only [Prod.mk.injEq] <;> refine ⟨?_, ?_⟩ <;>
            first | trivial | linarith

/-- C9 as amended: whenever at least one primitive's distance is strictly
below the 1e10 sentinel, map of the multi-primitive variant returns the
minimum of the five primitive distances together with the material id of
the earliest-declared primitive attaining it (declaration order sphere,
box, torus, heart, ground plane); at points where every primitive distance
is at least 1e10 the sentinel pair (1e10, 0) is returned instead of the
minimum. -/
theorem multi_map_min_earliest (sq : K → K) (sinT2 cosB sinB : K)
    (p : Vec3 K) (hm : Multi.minDist sq sinT2 cosB sinB p < 1e10) :
    Multi.map sq sinT2 cosB sinB p = Multi.mapSpec sq sinT2 cosB sinB p := by
  have h := minChain_step (1e10 : K) (Multi.sphereDistAt sq sinT2 p)
    (Multi.boxDistAt sq cosB sinB p) (Multi.torusDistAt sq p)
    (Multi.heartDistAt p) (Multi.planeDistAt p)
    (by simpa only [Multi.minDist] using hm)
  simpa only [Multi.map, Multi.mapSpec, Multi.minDist] using h

/-- Witness for C9 as amended: at the origin over the rationals (with the
identity in place of the square root) the sphere is within the sentinel,
and map agrees with the specified minimum selection. -/
theorem multi_map_min_earliest_witness :
    Multi.minDist (id : ℚ → ℚ) 0 1 0 ⟨0, 0, 0⟩ < 1e10 ∧
    Multi.map (id : ℚ → ℚ) 0 1 0 ⟨0, 0, 0⟩ =
      Multi.mapSpec (id : ℚ → ℚ) 0 1 0 ⟨0, 0, 0⟩ := by
  have h1 : Multi.sphereDistAt (id : ℚ → ℚ) 0 ⟨0, 0, 0⟩ < 1e10 := by
    norm_num [Multi.sphereDistAt, Multi.sdSphere, glslLength, dot]
  have hm : Multi.minDist (id : ℚ → ℚ) 0 1 0 ⟨0, 0, 0⟩ < 1e10 := by
    simp only [Multi.minDist]
    exact lt_of_le_of_lt (min_le_left _ _) h1
  exact ⟨hm, multi_map_min_earliest id 0 1 0 ⟨0, 0, 0⟩ hm⟩

/-- C9 counterexample: at the far point (0, 1e12, 0) every primitive
distance exceeds the 1e10 sentinel, so map of the multi-primitive variant
returns the sentinel distance 1e10, which is not the minimum of the
primitives' signed distances. -/
theorem multi_map_dist_not_min_far :
    (Multi.map Real.sqrt 0 1 0 ⟨0, 1e12, 0⟩).1 ≠
      Multi.minDist Real.sqrt 0 1 0 ⟨0, 1e12, 0⟩ := by
  have h25 : Real.sqrt 25 = 5 := by
    rw [show (25 : ℝ) = 5 ^ 2 by norm_num, Real.sqrt_sq (by norm_num)]
  have h1 : (1e10 : ℝ) < Multi.sphereDistAt Real.sqrt 0 ⟨0, 1e12, 0⟩ := by
    simp only [Multi.sphereDistAt, Multi.sdSphere, glslLength, dot,
      Vec3.sub_def]
    norm_num
    rw [h25]
    have hsq : (50000000004 : ℝ) < Real.sqrt 24999999999960000000000016 :=
      (Real.lt_sqrt (by norm_num)).2 (by norm_num)
    linarith
  have h2 : (1e10 : ℝ) < Multi.boxDistAt Real.sqrt 1 0 ⟨0, 1e12, 0⟩ := by
    simp only [Multi.boxDistAt, Multi.sdBox, glslLength, dot, Vec3.sub_def]
    norm_num [abs_of_nonneg, max_def, min_def]
    exact (Real.lt_sqrt (by norm_num)).2 (by norm_num)
  have h3 : (1e10 : ℝ) < Multi.torusDistAt Real.sqrt ⟨0, 1e12, 0⟩ := by
    simp only [Multi.torusDistAt, Multi.sdTorus, glslLength, dot, Vec3.sub_def]
    norm_num
    have hA := mul_self_nonneg (Real.sqrt 17 / Real.sqrt 4 - 4 / 5)
    have hkey : ((1e10 : ℝ) + 1 / 4) ^ 2 <
        (Real.sqrt 17 / Real.sqrt 4 - 4 / 5) * (Real.sqrt 17 / Real.sqrt 4 - 4 / 5) +
          24999999999970000000000009 / 25 := by nlinarith
    have hs := (Real.lt_sqrt (by norm_num : (0 : ℝ) ≤ 1e10 + 1 / 4)).2 hkey
    linarith
  have h4 : (1e10 : ℝ) < Multi.heartDistAt (⟨0, 1e12, 0⟩ : Vec3 ℝ) := by
    simp only [Multi.heartDistAt, Multi.sdHeartImplicit, Vec3.sub_def,
      Vec3.divS_def]
    norm_num
  have h5 : (1e10 : ℝ) < Multi.planeDistAt (⟨0, 1e12, 0⟩ : Vec3 ℝ) := by
    norm_num [Multi.planeDistAt]
  have hmap : (Multi.map Real.sqrt 0 1 0 (⟨0, 1e12, 0⟩ : Vec3 ℝ)).1 = 1e10 := by
    simp only [Multi.map]
    split_ifs <;> first | rfl | linarith
  have hmin : (1e10 : ℝ) < Multi.minDist Real.sqrt 0 1 0 ⟨0, 1e12, 0⟩ := by
    simp only [Multi.minDist]
    exact lt_min h1 (lt_min h2 (lt_min h3 (lt_min h4 h5)))
  rw [hmap]
  exact ne_of_lt hmin

end Theorems2

end SdfHeart
